import Mathlib

/-!
Verification of the password hashing service (package `pwdhashservice`).

The Go source is shallowly embedded below:
2E `getSha512HashString` (SHA-512 followed by URL-safe base64) is embedded as an
  executable Lean function over byte lists, with 64-bit machine words modelled
  as `Nat` reduced modulo `2 ^ 64`;
2E the mutable server state (`hashingStats`, `threadingInfo`, the shutdown flag)
  becomes an explicit `ServerState` record, and every method of `PwdHashServer`
  becomes a state-passing function;
2E the busy-wait loop `waitForWorkingThreads` becomes a fuel-indexed function
  returning `Option` (`none` means the loop did not exit within the fuel).
-/

namespace PwdHashService

/-! ## SHA-512 (crypto/sha512), on 64-bit words modelled as Nat mod 2^64 -/

/-- The modulus for 64-bit machine words. -/
def w64 : Nat := 18446744073709551616

/-- Addition of 64-bit words. -/
def add64 (a b : Nat) : Nat := (a + b) % w64

/-- Right rotation of a 64-bit word by `n` places (`0 < n < 64`), written
arithmetically: the low `n` bits move to the top. -/
def rotr64 (x n : Nat) : Nat := x / 2 ^ n + x % 2 ^ n * 2 ^ (64 - n)

/-- Bitwise complement of a 64-bit word. -/
def not64 (x : Nat) : Nat := 18446744073709551615 - x

/-- The SHA-512 choice function. -/
def ch64 (x y z : Nat) : Nat := (x &&& y) ^^^ (not64 x &&& z)

/-- The SHA-512 majority function. -/
def maj64 (x y z : Nat) : Nat := (x &&& y) ^^^ (x &&& z) ^^^ (y &&& z)

/-- The SHA-512 big Sigma0 function. -/
def bigSigma0 (x : Nat) : Nat := rotr64 x 28 ^^^ rotr64 x 34 ^^^ rotr64 x 39

/-- The SHA-512 big Sigma1 function. -/
def bigSigma1 (x : Nat) : Nat := rotr64 x 14 ^^^ rotr64 x 18 ^^^ rotr64 x 41

/-- The SHA-512 small sigma0 function. -/
def smallSigma0 (x : Nat) : Nat := rotr64 x 1 ^^^ rotr64 x 8 ^^^ x / 2 ^ 7

/-- The SHA-512 small sigma1 function. -/
def smallSigma1 (x : Nat) : Nat := rotr64 x 19 ^^^ rotr64 x 61 ^^^ x / 2 ^ 6

/-- The 80 SHA-512 round constants (fractional parts of the cube roots of the
first 80 primes, as 64-bit words). -/
def K512 : List Nat :=
  [4794697086780616226, 8158064640168781261, 13096744586834688815,
   16840607885511220156, 4131703408338449720, 6480981068601479193,
   10538285296894168987, 12329834152419229976, 15566598209576043074,
   1334009975649890238, 2608012711638119052, 6128411473006802146,
   8268148722764581231, 9286055187155687089, 11230858885718282805,
   13951009754708518548, 16472876342353939154, 17275323862435702243,
   1135362057144423861, 2597628984639134821, 3308224258029322869,
   5365058923640841347, 6679025012923562964, 8573033837759648693,
   10970295158949994411, 12119686244451234320, 12683024718118986047,
   13788192230050041572, 14330467153632333762, 15395433587784984357,
   489312712824947311, 1452737877330783856, 2861767655752347644,
   3322285676063803686, 5560940570517711597, 5996557281743188959,
   7280758554555802590, 8532644243296465576, 9350256976987008742,
   10552545826968843579, 11727347734174303076, 12113106623233404929,
   14000437183269869457, 14369950271660146224, 15101387698204529176,
   15463397548674623760, 17586052441742319658, 1182934255886127544,
   1847814050463011016, 2177327727835720531, 2830643537854262169,
   3796741975233480872, 4115178125766777443, 5681478168544905931,
   6601373596472566643, 7507060721942968483, 8399075790359081724,
   8693463985226723168, 9568029438360202098, 10144078919501101548,
   10430055236837252648, 11840083180663258601, 13761210420658862357,
   14299343276471374635, 14566680578165727644, 15097957966210449927,
   16922976911328602910, 17689382322260857208, 500013540394364858,
   748580250866718886, 1242879168328830382, 1977374033974150939,
   2944078676154940804, 3659926193048069267, 4368137639120453308,
   4836135668995329356, 5532061633213252278, 6448918945643986474,
   6902733635092675308, 7801388544844847127]

/-- The 8 initial SHA-512 hash words (fractional parts of the square roots of
the first 8 primes, as 64-bit words). -/
def H512init : List Nat :=
  [7640891576956012808, 13503953896175478587, 4354685564936845355,
   11912009170470909681, 5840696475078001361, 11170449401992604703,
   2270897969802886507, 6620516959819538809]

/-- Big-endian byte rendering of `n` on `k` bytes. -/
def natToBytesBE (k n : Nat) : List Nat :=
  (List.range k).map (fun i => n / 2 ^ (8 * (k - 1 - i)) % 256)

/-- Big-endian word assembled from a byte list. -/
def bytesToWord (bs : List Nat) : Nat := bs.foldl (fun acc b => acc * 256 + b) 0

/-- The first `k` chunks of `sz` elements each of a list. -/
def splitChunks (sz : Nat) : Nat → List Nat → List (List Nat)
  | 0, _ => []
  | k + 1, l => l.take sz :: splitChunks sz k (l.drop sz)

/-- SHA-512 message padding: a `0x80` byte, zero bytes up to 112 mod 128, then
the bit length on 16 big-endian bytes. -/
def padMessage (msg : List Nat) : List Nat :=
  msg ++ [128] ++ List.replicate ((240 - (msg.length % 128 + 1)) % 128) 0
      ++ natToBytesBE 16 (8 * msg.length)

/-- The eight SHA-512 working registers. -/
structure Sha512Regs where
  ra : Nat
  rb : Nat
  rc : Nat
  rd : Nat
  re : Nat
  rf : Nat
  rg : Nat
  rh : Nat

/-- Loads the registers from a hash-state list. -/
def regsOfList (H : List Nat) : Sha512Regs :=
  ⟨H.getD 0 0, H.getD 1 0, H.getD 2 0, H.getD 3 0,
   H.getD 4 0, H.getD 5 0, H.getD 6 0, H.getD 7 0⟩

/-- Stores the registers back into a list. -/
def listOfRegs (r : Sha512Regs) : List Nat :=
  [r.ra, r.rb, r.rc, r.rd, r.re, r.rf, r.rg, r.rh]

/-- One SHA-512 compression round, fed one round constant and one schedule
word. -/
def sha512Round (r : Sha512Regs) (kw : Nat × Nat) : Sha512Regs :=
  let t1 := (r.rh + bigSigma1 r.re + ch64 r.re r.rf r.rg + kw.1 + kw.2) % w64
  let t2 := (bigSigma0 r.ra + maj64 r.ra r.rb r.rc) % w64
  ⟨(t1 + t2) % w64, r.ra, r.rb, r.rc, (r.rd + t1) % w64, r.re, r.rf, r.rg⟩

/-- Extends the message schedule by one word. -/
def scheduleStep (w : List Nat) : List Nat :=
  let n := w.length
  w ++ [(w.getD (n - 16) 0 + smallSigma0 (w.getD (n - 15) 0) + w.getD (n - 7) 0
         + smallSigma1 (w.getD (n - 2) 0)) % w64]

/-- Iterates a function `n` times. -/
def iterN {α : Type} (f : α → α) : Nat → α → α
  | 0, a => a
  | n + 1, a => iterN f n (f a)

/-- The 80-word SHA-512 message schedule grown from the 16 block words. -/
def messageSchedule (w16 : List Nat) : List Nat := iterN scheduleStep 64 w16

/-- SHA-512 compression of one 128-byte block into the hash state. -/
def compressBlock (H : List Nat) (block : List Nat) : List Nat :=
  let w16 := (splitChunks 8 16 block).map bytesToWord
  let w := messageSchedule w16
  let rfin := (K512.zip w).foldl sha512Round (regsOfList H)
  List.zipWith add64 H (listOfRegs rfin)

/-- SHA-512 of a byte list: pad, compress each block, render the final state
big-endian, giving the 64-byte digest. -/
def sha512 (msg : List Nat) : List Nat :=
  let padded := padMessage msg
  let blocks := splitChunks 128 (padded.length / 128) padded
  ((blocks.foldl compressBlock H512init).map (natToBytesBE 8)).flatten

/-! ## URL-safe base64 (encoding/base64 URLEncoding, padding retained) -/

/-- The URL-safe base64 alphabet. -/
def b64Alphabet : List Char :=
  "ABCDEFGHIJKLMNOPQRSTUVWXYZabcdefghijklmnopqrstuvwxyz0123456789-_".toList

/-- The alphabet character for a 6-bit value. -/
def b64Char (n : Nat) : Char := b64Alphabet.getD n (Char.ofNat 65)

/-- URL-safe base64 encoding of a byte list, with `=` padding retained. -/
def b64Encode : List Nat → List Char
  | [] => []
  | [b1] => [b64Char (b1 / 4), b64Char (b1 % 4 * 16), '=', '=']
  | [b1, b2] => [b64Char (b1 / 4), b64Char (b1 % 4 * 16 + b2 / 16),
                 b64Char (b2 % 16 * 4), '=']
  | b1 :: b2 :: b3 :: rest =>
    b64Char (b1 / 4) :: b64Char (b1 % 4 * 16 + b2 / 16) ::
      b64Char (b2 % 16 * 4 + b3 / 64) :: b64Char (b3 % 64) :: b64Encode rest

/-- Embeds `getSha512HashString`: SHA-512 of the bytes, rendered with URL-safe
base64 (source lines 97 to 102). -/
def getSha512HashString (bytes : List Nat) : String :=
  String.mk (b64Encode (sha512 bytes))

/-! ## Server state (PwdHashServer, hashingStats, threadingInfo)

The Go struct fields `hashStats.totalHashed`, `hashStats.totalHashingTime`
(both int64), `threadInfo.numWorkingThreads` (int) and `shutdownInProgress`
(bool) become one record; overflow is immaterial to the claims, so the int64
and int fields are modelled as `Int`. The field `transportStopped` records the
externally visible effect of the `httpServer.Shutdown` call made by the
shutdown handler. -/

structure ServerState where
  totalHashed : Int
  totalHashingTime : Int
  numWorkingThreads : Int
  shutdownInProgress : Bool
  transportStopped : Bool
deriving DecidableEq

/-- Embeds `NewPasswordHashingServer` (source lines 40 to 48): zeroed counters
and a cleared shutdown flag. -/
def NewPasswordHashingServer : ServerState :=
  { totalHashed := 0, totalHashingTime := 0, numWorkingThreads := 0,
    shutdownInProgress := false, transportStopped := false }

/-- Embeds `incrementWorkingThreads` (source lines 90 to 94): one critical
section under `numWorkingThreadsMutex` adding 1. -/
def incrementWorkingThreads (s : ServerState) : ServerState :=
  { s with numWorkingThreads := s.numWorkingThreads + 1 }

/-- Embeds `decrementWorkingThreads` (source lines 119 to 123): one critical
section under `numWorkingThreadsMutex` subtracting 1, with no lower bound. -/
def decrementWorkingThreads (s : ServerState) : ServerState :=
  { s with numWorkingThreads := s.numWorkingThreads - 1 }

/-- Embeds `incrementTotalHashed` (source lines 104 to 109): one critical
section under `totalHashedMutex` adding 1 to `totalHashed` only. -/
def incrementTotalHashed (s : ServerState) : ServerState :=
  { s with totalHashed := s.totalHashed + 1 }

/-- Embeds `increaseTotalHashingTime` (source lines 112 to 116): one critical
section under `totalHashingTimeMutex` adding
`int64(additionalTime / time.Millisecond)` to `totalHashingTime`. The Go
duration is int64 nanoseconds and `time.Millisecond` is 1000000, with Go
integer division truncating toward zero, hence `Int.tdiv`. -/
def increaseTotalHashingTime (s : ServerState) (additionalTime : Int) : ServerState :=
  { s with totalHashingTime := s.totalHashingTime + additionalTime.tdiv 1000000 }

/-- Embeds `getAverageHashingTimeInMillis` (source lines 167 to 172): 0 when
`totalHashed` is 0, otherwise truncating int64 division. -/
def getAverageHashingTimeInMillis (totalHashed totalHashingTime : Int) : Int :=
  if totalHashed = 0 then 0 else totalHashingTime.tdiv totalHashed

/-! ## JSON marshalling of the statistics map (encoding/json)

`getJsonStats` builds `map[string]int64 {"total": th, "average": avg}` and
marshals it with `json.Marshal`, which serializes map keys in sorted (byte
wise lexicographic) order. The map is embedded as the association list in the
source insertion order, and the marshaller as sort-then-render. -/

/-- Byte-wise lexicographic strict order on keys, as Go `sort.Strings` uses
when `json.Marshal` sorts map keys (ASCII keys, so char order is byte order). -/
def keyLt : List Char → List Char → Bool
  | [], [] => false
  | [], _ :: _ => true
  | _ :: _, [] => false
  | c :: cs, d :: ds =>
    if c.toNat < d.toNat then true
    else if d.toNat < c.toNat then false
    else keyLt cs ds

/-- Insertion into a key-sorted association list. -/
def insertByKey (p : String × Int) : List (String × Int) → List (String × Int)
  | [] => [p]
  | q :: rest => if keyLt p.1.data q.1.data then p :: q :: rest
                 else q :: insertByKey p rest

/-- Insertion sort of an association list by key. -/
def sortByKey : List (String × Int) → List (String × Int)
  | [] => []
  | p :: rest => insertByKey p (sortByKey rest)

/-- Renders the entries of a JSON object body, comma separated. -/
def renderEntries : List (String × Int) → String
  | [] => ""
  | [kv] => "\"" ++ kv.1 ++ "\":" ++ toString kv.2
  | kv :: rest => "\"" ++ kv.1 ++ "\":" ++ toString kv.2 ++ "," ++ renderEntries rest

/-- Marshals a string-to-int64 map (association list in insertion order) the
way `json.Marshal` does: keys sorted, two-element integer object. -/
def marshalIntMap (m : List (String × Int)) : String :=
  "\x7b" ++ renderEntries (sortByKey m) ++ "\x7d"

/-- Embeds `getJsonStats` (source lines 175 to 182): marshals the map literal
`\x7b"total": totalHashed, "average": averageHashingTime\x7d`. -/
def getJsonStats (totalHashed averageHashingTime : Int) : String :=
  marshalIntMap [("total", totalHashed), ("average", averageHashingTime)]

/-! ## Handlers and the drain loop -/

/-- Embeds the busy-wait loop of `waitForWorkingThreads` (source lines 143 to
146): the loop `for numWorkingThreads > 0 \x7b\x7d` has an empty body, so in this
sequential embedding the state never changes inside the loop; `fuel` bounds
the number of re-checks and `none` means the loop was still spinning when the
fuel ran out. -/
def waitForWorkingThreads (s : ServerState) : Nat → Option ServerState
  | 0 => if s.numWorkingThreads > 0 then none else some s
  | fuel + 1 => if s.numWorkingThreads > 0 then waitForWorkingThreads s fuel else some s

/-- Embeds the handler returned by `getHashingHandler` (source lines 71 to 88)
as one sequential execution: the wall-clock elapsed time (nanoseconds) is an
input, the response body is the second component of the result. -/
def hashHandler (s : ServerState) (password : List Nat) (elapsedNanos : Int) :
    ServerState × String :=
  if s.shutdownInProgress then (s, "")
  else
    let s1 := incrementWorkingThreads s
    let hash := getSha512HashString password
    let s2 := incrementTotalHashed s1
    let s3 := increaseTotalHashingTime s2 elapsedNanos
    (decrementWorkingThreads s3, hash)

/-- Embeds the handler returned by `getStatsHandler` (source lines 150 to 164)
as one sequential execution: it reads both statistics fields (under both
mutexes) and writes the marshalled snapshot. -/
def statsHandler (s : ServerState) : ServerState × String :=
  if s.shutdownInProgress then (s, "")
  else
    let s1 := incrementWorkingThreads s
    let body := getJsonStats s1.totalHashed
      (getAverageHashingTimeInMillis s1.totalHashed s1.totalHashingTime)
    (decrementWorkingThreads s1, body)

/-- Embeds the handler returned by `getShutdownHandler` (source lines 126 to
140): if no shutdown is in progress it sets the flag, drains, and then stops
the transport (the successful `httpServer.Shutdown` call is recorded in
`transportStopped`; its error branch is outside this model) writing an empty
body; otherwise it only writes the fixed text. `fuel` bounds the drain loop as
in `waitForWorkingThreads`. -/
def shutdownHandler (s : ServerState) (fuel : Nat) : Option (ServerState × String) :=
  if !s.shutdownInProgress then
    let s1 := { s with shutdownInProgress := true }
    match waitForWorkingThreads s1 fuel with
    | none => none
    | some s2 => some ({ s2 with transportStopped := true }, "")
  else some (s, "A server shutdown is already in progress.")

/-! ## The tracker operations as an interleaving alphabet (for claim C3) -/

/-- One atomic tracker operation: the critical section of
`incrementWorkingThreads` or of `decrementWorkingThreads`. -/
inductive TrackerOp where
  | enter : TrackerOp
  | leave : TrackerOp
deriving DecidableEq

/-- Applies one tracker operation to the state. -/
def applyTrackerOp (s : ServerState) : TrackerOp → ServerState
  | TrackerOp.enter => incrementWorkingThreads s
  | TrackerOp.leave => decrementWorkingThreads s

/-- Runs a sequence of tracker operations, one interleaving of the critical
sections of concurrent `enter` and `leave` calls. -/
def runTrackerOps (s : ServerState) (ops : List TrackerOp) : ServerState :=
  ops.foldl applyTrackerOp s

/-! ## Helper lemmas -/

/-- The drain loop only produces a state when the observed counter is not
positive, and then it is the unchanged input state. -/
theorem waitForWorkingThreads_some_inv :
    ∀ (fuel : Nat) (s s2 : ServerState), waitForWorkingThreads s fuel = some s2 →
      s2 = s ∧ ¬ s.numWorkingThreads > 0 := by
  intro fuel
  induction fuel with
  | zero =>
    intro s s2 h
    by_cases hc : s.numWorkingThreads > 0 <;> simp [waitForWorkingThreads, hc] at h
    exact ⟨h.symm, hc⟩
  | succ n ih =>
    intro s s2 h
    by_cases hc : s.numWorkingThreads > 0
    · exact ih s s2 (by simpa [waitForWorkingThreads, hc] using h)
    · simp [waitForWorkingThreads, hc] at h
      exact ⟨h.symm, hc⟩

/-- The drain loop exits at the very first check, returning the unchanged
state, whenever the counter is not positive. -/
theorem waitForWorkingThreads_some_of_nonpos :
    ∀ (fuel : Nat) (s : ServerState), s.numWorkingThreads ≤ 0 →
      waitForWorkingThreads s fuel = some s := by
  intro fuel s h
  have hc : ¬ s.numWorkingThreads > 0 := by omega
  cases fuel <;> simp [waitForWorkingThreads, hc]

/-- The in-flight counter after a sequence of tracker operations is the start
value plus the number of enters minus the number of leaves. -/
theorem runTrackerOps_numWorkingThreads :
    ∀ (ops : List TrackerOp) (s : ServerState),
      (runTrackerOps s ops).numWorkingThreads =
        s.numWorkingThreads + (ops.count TrackerOp.enter : Int)
          - (ops.count TrackerOp.leave : Int) := by
  intro ops
  induction ops with
  | nil => intro s; simp [runTrackerOps]
  | cons op rest ih =>
    intro s
    have h1 : runTrackerOps s (op :: rest) = runTrackerOps (applyTrackerOp s op) rest := rfl
    rw [h1, ih]
    cases op <;>
      simp [applyTrackerOp, incrementWorkingThreads, decrementWorkingThreads,
            List.count_cons] <;>
      omega

/-- Truncating division by one million sends every duration strictly inside
one millisecond to zero. -/
theorem tdiv_million_eq_zero (d : Int) (h1 : -1000000 < d) (h2 : d < 1000000) :
    d.tdiv 1000000 = 0 := by
  rcases le_or_lt 0 d with h | h
  · exact Int.tdiv_eq_zero_of_lt h h2
  · have hd : d = -(-d) := (neg_neg d).symm
    rw [hd, Int.neg_tdiv, Int.tdiv_eq_zero_of_lt (by omega) (by omega), neg_zero]

/-- Truncating division by one million sends every duration of at least one
negative millisecond to a strictly negative value. -/
theorem tdiv_million_le_neg_one (d : Int) (h : d ≤ -1000000) :
    d.tdiv 1000000 ≤ -1 := by
  have hd : d = -(-d) := (neg_neg d).symm
  have h1 : (1 : Int) ≤ (-d).tdiv 1000000 := by
    rw [Int.tdiv_eq_ediv (by omega) (by omega)]
    exact (Int.le_ediv_iff_mul_le (by omega)).mpr (by omega)
  rw [hd, Int.neg_tdiv]
  omega

/-- The base64 encoder emits four characters for every started group of three
bytes. -/
theorem b64Encode_length : ∀ l : List Nat, (b64Encode l).length = (l.length + 2) / 3 * 4
  | [] => rfl
  | [_] => by simp [b64Encode]
  | [_, _] => by simp [b64Encode]
  | b1 :: b2 :: b3 :: rest => by
    have ih := b64Encode_length rest
    simp [b64Encode, ih]
    omega

/-- One SHA-512 block compression keeps the hash state at 8 words. -/
theorem compressBlock_length (H block : List Nat) (h : H.length = 8) :
    (compressBlock H block).length = 8 := by
  simp [compressBlock, listOfRegs, h]

/-- Folding block compressions keeps the hash state at 8 words. -/
theorem foldl_compressBlock_length :
    ∀ (blocks : List (List Nat)) (H : List Nat), H.length = 8 →
      (blocks.foldl compressBlock H).length = 8
  | [], _, h => h
  | b :: rest, H, h =>
    foldl_compressBlock_length rest (compressBlock H b) (compressBlock_length H b h)

/-- Rendering a word on 8 bytes gives 8 bytes. -/
theorem natToBytesBE_length (k n : Nat) : (natToBytesBE k n).length = k := by
  simp [natToBytesBE]

/-- Rendering each hash word on 8 bytes gives 8 bytes per word in total. -/
theorem map_natToBytesBE_sum (l : List Nat) :
    (l.map (List.length ∘ natToBytesBE 8)).sum = 8 * l.length := by
  induction l with
  | nil => rfl
  | cons x rest ih =>
    simp [Function.comp, natToBytesBE_length, ih]
    ring

/-- Rendering an 8-word hash state big-endian gives the 64-byte digest. -/
theorem digest_length (Hf : List Nat) (h : Hf.length = 8) :
    ((Hf.map (natToBytesBE 8)).flatten).length = 64 := by
  rw [List.length_flatten, List.map_map, map_natToBytesBE_sum, h]

/-- The SHA-512 digest of any byte list has exactly 64 bytes. -/
theorem sha512_length (msg : List Nat) : (sha512 msg).length = 64 :=
  digest_length _ (foldl_compressBlock_length _ H512init rfl)

/-! ## Claim theorems -/

set_option maxRecDepth 100000 in
/-- Claim C5: `getSha512HashString` is deterministic in its input bytes, its
output always has the same fixed length (88 characters: URL-safe base64 of the
64-byte SHA-512 digest, padding retained), and on the empty input it returns
exactly the literal digest string. -/
theorem getSha512HashString_spec :
    (∀ b1 b2 : List Nat, b1 = b2 → getSha512HashString b1 = getSha512HashString b2) ∧
    (∀ bs : List Nat, (getSha512HashString bs).length = 88) ∧
    getSha512HashString [] =
      "z4PhNX7vuL3xVChQ1m2AB9Yg5AULVxXcg_SpIdNs6c5H0NE8XYXysP-DGNKHfuwvY7kxvUdBeoGlODJ6-SfaPg==" := by
  refine ⟨fun b1 b2 h => by rw [h], fun bs => ?_, by decide⟩
  show (String.mk (b64Encode (sha512 bs))).length = 88
  simp [String.length, b64Encode_length, sha512_length]

/-- Witness for claim C5: the determinism conjunct applied at a concrete
input. -/
theorem getSha512HashString_spec_witness :
    getSha512HashString [100] = getSha512HashString [100] :=
  getSha512HashString_spec.1 [100] [100] rfl

/-- Claim C2: the drain loop `waitForWorkingThreads` never returns while the
in-flight counter is greater than zero (exiting requires the observed counter
to be non-positive), and when the counter is already zero it returns at the
first check with the server state unmodified. -/
theorem waitForWorkingThreads_spec :
    (∀ (s : ServerState) (fuel : Nat) (s2 : ServerState),
        waitForWorkingThreads s fuel = some s2 → s2 = s ∧ ¬ s.numWorkingThreads > 0) ∧
    (∀ (s : ServerState) (fuel : Nat), s.numWorkingThreads = 0 →
        waitForWorkingThreads s fuel = some s) :=
  ⟨fun s fuel s2 h => waitForWorkingThreads_some_inv fuel s s2 h,
   fun s fuel h => waitForWorkingThreads_some_of_nonpos fuel s (by omega)⟩

/-- Witness for claim C2: both conjuncts applied to the fresh server, whose
counter is zero, with fuel 5. -/
theorem waitForWorkingThreads_spec_witness :
    (NewPasswordHashingServer = NewPasswordHashingServer ∧
      ¬ NewPasswordHashingServer.numWorkingThreads > 0) ∧
    waitForWorkingThreads NewPasswordHashingServer 5 = some NewPasswordHashingServer :=
  ⟨waitForWorkingThreads_spec.1 NewPasswordHashingServer 5 NewPasswordHashingServer (by decide),
   waitForWorkingThreads_spec.2 NewPasswordHashingServer 5 (by decide)⟩

/-- Claim C3: any interleaving of the atomic critical sections of `N` calls to
`incrementWorkingThreads` and `N` calls to `decrementWorkingThreads` (equal
counts of enter and leave, in any order) returns the in-flight counter to its
starting value, and to 0 when started from a fresh server. -/
theorem trackerOps_balanced_spec :
    (∀ (s : ServerState) (ops : List TrackerOp),
        ops.count TrackerOp.enter = ops.count TrackerOp.leave →
        (runTrackerOps s ops).numWorkingThreads = s.numWorkingThreads) ∧
    (∀ ops : List TrackerOp,
        ops.count TrackerOp.enter = ops.count TrackerOp.leave →
        (runTrackerOps NewPasswordHashingServer ops).numWorkingThreads = 0) := by
  have key : ∀ (s : ServerState) (ops : List TrackerOp),
      ops.count TrackerOp.enter = ops.count TrackerOp.leave →
      (runTrackerOps s ops).numWorkingThreads = s.numWorkingThreads := by
    intro s ops h
    rw [runTrackerOps_numWorkingThreads, h]
    omega
  exact ⟨key, fun ops h => by rw [key NewPasswordHashingServer ops h]; rfl⟩

/-- Witness for claim C3: a concrete interleaved run enter, enter, leave,
leave from the fresh server ends with the counter back at zero. -/
theorem trackerOps_balanced_spec_witness :
    (runTrackerOps NewPasswordHashingServer
      [TrackerOp.enter, TrackerOp.enter, TrackerOp.leave, TrackerOp.leave]).numWorkingThreads
      = 0 :=
  trackerOps_balanced_spec.2
    [TrackerOp.enter, TrackerOp.enter, TrackerOp.leave, TrackerOp.leave] (by decide)

/-- Claim C4: the average is 0 when `totalHashed` is 0 (no division fault),
otherwise it is the truncating integer division of `totalHashingTime` by
`totalHashed`; in particular the average of (2, 12) is 6 and of (3, 23) is 7. -/
theorem getAverageHashingTime_spec :
    (∀ t : Int, getAverageHashingTimeInMillis 0 t = 0) ∧
    (∀ n t : Int, n ≠ 0 → getAverageHashingTimeInMillis n t = t.tdiv n) ∧
    getAverageHashingTimeInMillis 2 12 = 6 ∧
    getAverageHashingTimeInMillis 3 23 = 7 := by
  refine ⟨fun t => by simp [getAverageHashingTimeInMillis],
          fun n t hn => by simp [getAverageHashingTimeInMillis, hn],
          by decide, by decide⟩

/-- Witness for claim C4: the nonzero-denominator conjunct applied at the
concrete input (5, 23). -/
theorem getAverageHashingTime_spec_witness :
    getAverageHashingTimeInMillis 5 23 = Int.tdiv 23 5 :=
  getAverageHashingTime_spec.2.1 5 23 (by decide)

/-- Claim C7: when the shutdown flag is set on arrival, both the hashing
handler and the statistics handler write an empty body and return the server
state completely unchanged (counters, statistics and flag included), never
registering with the tracker. -/
theorem handlers_rejectDuringShutdown_spec :
    ∀ (s : ServerState) (password : List Nat) (elapsedNanos : Int),
      s.shutdownInProgress = true →
      hashHandler s password elapsedNanos = (s, "") ∧ statsHandler s = (s, "") := by
  intro s pw d h
  exact ⟨by simp [hashHandler, h], by simp [statsHandler, h]⟩

/-- Witness for claim C7: the theorem applied to the fresh server with its
shutdown flag set. -/
theorem handlers_rejectDuringShutdown_spec_witness :
    hashHandler { NewPasswordHashingServer with shutdownInProgress := true } [] 0 =
      ({ NewPasswordHashingServer with shutdownInProgress := true }, "") ∧
    statsHandler { NewPasswordHashingServer with shutdownInProgress := true } =
      ({ NewPasswordHashingServer with shutdownInProgress := true }, "") :=
  handlers_rejectDuringShutdown_spec
    { NewPasswordHashingServer with shutdownInProgress := true } [] 0 rfl

/-- Claim C8: when `shutdownInProgress` is already true the shutdown handler
writes exactly the fixed text and takes no further action: it returns with
the server state unchanged (so the drain loop is not entered and the
transport is not stopped), for every drain fuel. -/
theorem shutdownHandler_alreadyInProgress_spec :
    ∀ (s : ServerState) (fuel : Nat), s.shutdownInProgress = true →
      shutdownHandler s fuel = some (s, "A server shutdown is already in progress.") := by
  intro s fuel h
  simp [shutdownHandler, h]

/-- Witness for claim C8: the theorem applied to the fresh server with its
shutdown flag set. -/
theorem shutdownHandler_alreadyInProgress_spec_witness :
    shutdownHandler { NewPasswordHashingServer with shutdownInProgress := true } 3 =
      some ({ NewPasswordHashingServer with shutdownInProgress := true },
        "A server shutdown is already in progress.") :=
  shutdownHandler_alreadyInProgress_spec
    { NewPasswordHashingServer with shutdownInProgress := true } 3 rfl

/-- Claim C9: `decrementWorkingThreads` subtracts 1 unconditionally with no
lower bound, leaving the counter at -1 when called at 0, and the drain loop
returns (with the state unchanged) for every counter value that is at most 0,
not only exactly 0. -/
theorem decrement_unbounded_spec :
    (∀ s : ServerState,
        (decrementWorkingThreads s).numWorkingThreads = s.numWorkingThreads - 1) ∧
    (∀ s : ServerState, s.numWorkingThreads = 0 →
        (decrementWorkingThreads s).numWorkingThreads = -1) ∧
    (∀ (s : ServerState) (fuel : Nat), s.numWorkingThreads ≤ 0 →
        waitForWorkingThreads s fuel = some s) :=
  ⟨fun s => rfl,
   fun s h => by simp [decrementWorkingThreads, h],
   fun s fuel h => waitForWorkingThreads_some_of_nonpos fuel s h⟩

/-- Witness for claim C9: decrementing the fresh server (counter 0) yields -1,
and the drain loop returns on a state whose counter is the negative value -2. -/
theorem decrement_unbounded_spec_witness :
    (decrementWorkingThreads NewPasswordHashingServer).numWorkingThreads = -1 ∧
    waitForWorkingThreads { NewPasswordHashingServer with numWorkingThreads := -2 } 4 =
      some { NewPasswordHashingServer with numWorkingThreads := -2 } :=
  ⟨decrement_unbounded_spec.2.1 NewPasswordHashingServer (by decide),
   decrement_unbounded_spec.2.2 { NewPasswordHashingServer with numWorkingThreads := -2 } 4
     (by decide)⟩

/-- Claim C10: `increaseTotalHashingTime` converts the duration to whole
milliseconds truncating toward zero, so any duration strictly between -1ms and
1ms (exclusive, in nanoseconds) leaves `totalHashingTime` unchanged, and any
duration of at most -1ms strictly decreases it: the operation alone does not
keep `totalHashingTime` non-negative. -/
theorem increaseTotalHashingTime_truncation_spec :
    (∀ (s : ServerState) (d : Int), -1000000 < d → d < 1000000 →
        (increaseTotalHashingTime s d).totalHashingTime = s.totalHashingTime) ∧
    (∀ (s : ServerState) (d : Int), d ≤ -1000000 →
        (increaseTotalHashingTime s d).totalHashingTime < s.totalHashingTime) := by
  constructor
  · intro s d h1 h2
    simp [increaseTotalHashingTime, tdiv_million_eq_zero d h1 h2]
  · intro s d h
    have hle := tdiv_million_le_neg_one d h
    simp only [increaseTotalHashingTime]
    omega

/-- Witness for claim C10: a duration of 999999 nanoseconds (just under one
millisecond) leaves the total unchanged on the fresh server, and a duration of
exactly -1ms strictly decreases it. -/
theorem increaseTotalHashingTime_truncation_spec_witness :
    (increaseTotalHashingTime NewPasswordHashingServer 999999).totalHashingTime =
      NewPasswordHashingServer.totalHashingTime ∧
    (increaseTotalHashingTime NewPasswordHashingServer (-1000000)).totalHashingTime <
      NewPasswordHashingServer.totalHashingTime :=
  ⟨increaseTotalHashingTime_truncation_spec.1 NewPasswordHashingServer 999999
      (by decide) (by decide),
   increaseTotalHashingTime_truncation_spec.2 NewPasswordHashingServer (-1000000)
      (by decide)⟩

/-- Claim C1 (failing): in the source the two statistics fields sit under two
independent mutexes and the hashing handler updates them in two separate
critical sections (`incrementTotalHashed` releases `totalHashedMutex` before
`increaseTotalHashingTime` takes `totalHashingTimeMutex`, source lines 82 to
84), so the state reached after the first critical section alone is
observable by a concurrent `/stats` reader. For one completed hash operation
of 5000 ms (5000000000 ns) from the fresh server, that intermediate state
already carries the final `totalHashed` (1) while `totalHashingTime` still has
its pre-operation value (0, not 5000), and the statistics handler run at that
state serves exactly this partially-updated snapshot. -/
theorem statsUpdate_partialState_observable :
    (incrementTotalHashed NewPasswordHashingServer).totalHashed =
      (increaseTotalHashingTime (incrementTotalHashed NewPasswordHashingServer)
        5000000000).totalHashed ∧
    (incrementTotalHashed NewPasswordHashingServer).totalHashingTime =
      NewPasswordHashingServer.totalHashingTime ∧
    (increaseTotalHashingTime (incrementTotalHashed NewPasswordHashingServer)
        5000000000).totalHashingTime = 5000 ∧
    (statsHandler (incrementTotalHashed NewPasswordHashingServer)).2 =
      "\x7b\"average\":0,\"total\":1\x7d" := by
  refine ⟨by decide, by decide, by decide, by decide⟩

/-- Claim C6: `getJsonStats` produces exactly the JSON object with the two
integer keys in alphabetical order (the insertion-ordered map total-then-
average is re-sorted to average-then-total by the marshaller), the concrete
pair (30, 2000) marshals to the expected literal, and the statistics handler
on a fresh server writes the all-zero body. -/
theorem getJsonStats_spec :
    (∀ th avg : Int, getJsonStats th avg =
      "\x7b\"average\":" ++ toString avg ++ ",\"total\":" ++ toString th ++ "\x7d") ∧
    getJsonStats 30 2000 = "\x7b\"average\":2000,\"total\":30\x7d" ∧
    (statsHandler NewPasswordHashingServer).2 = "\x7b\"average\":0,\"total\":0\x7d" := by
  refine ⟨fun th avg => ?_, by decide, by decide⟩
  have hsort : sortByKey [("total", th), ("average", avg)] =
      [("average", avg), ("total", th)] := rfl
  show marshalIntMap [("total", th), ("average", avg)] = _
  rw [marshalIntMap, hsort]
  apply String.ext
  simp [String.data_append, renderEntries]

end PwdHashService

